import Mathlib

/-!
Shallow embedding of the WalletConnect v2 client core (packages/client):
the Subscription store, the Relayer, the Pairing merge rules and the
Client approval logic, translated from the TypeScript source.

JavaScript `Map<string, V>` values are modelled as association lists
`List (String × V)` with `mapSet` (in-place replace when the key exists,
append otherwise — the insertion-order semantics of a JS Map), `mapGet`,
`mapDelete` and `mapHas`.  JavaScript object spread over plain records is
modelled field by field; objects of statically unknown shape (the generic
`Sequence` payload) are modelled as field-name → value association lists
so that the spread `{...old, ...upd}` is expressible (`jsMerge`).
Timestamps are `Nat` milliseconds (`Date.now()`), TTL arithmetic is done
in `Int` where the source compares possibly negative remainders.
-/

namespace WCv2

/-- JS `Map.get`: the value stored at `k`, if any. -/
def mapGet {α : Type} (m : List (String × α)) (k : String) : Option α :=
  match m.find? (fun p => p.1 == k) with
  | some p => some p.2
  | none => none

/-- JS `Map.has`. -/
def mapHas {α : Type} (m : List (String × α)) (k : String) : Bool :=
  m.any (fun p => p.1 == k)

/-- JS `Map.set`: replaces in place when the key is present (keeping
insertion order), appends otherwise. -/
def mapSet {α : Type} (m : List (String × α)) (k : String) (v : α) :
    List (String × α) :=
  if mapHas m k then m.map (fun p => if p.1 == k then (k, v) else p)
  else m ++ [(k, v)]

/-- JS `Map.delete`. -/
def mapDelete {α : Type} (m : List (String × α)) (k : String) :
    List (String × α) :=
  m.filter (fun p => p.1 != k)

theorem find?_map_replace_ne {α : Type} (m : List (String × α)) (k k2 : String)
    (v : α) (h : k2 ≠ k) :
    (m.map (fun p => if p.1 == k then (k, v) else p)).find? (fun p => p.1 == k2)
      = m.find? (fun p => p.1 == k2) := by
  induction m with
  | nil => rfl
  | cons a t ih =>
    by_cases ha : (a.1 == k) = true
    · have ha1 : a.1 = k := by simpa using ha
      have hk2 : (((k, v) : String × α).1 == k2) = false := by
        simp only [beq_eq_false_iff_ne, ne_eq]
        exact fun hk => h hk.symm
      have ha2 : (a.1 == k2) = false := by
        simp only [beq_eq_false_iff_ne, ne_eq, ha1]
        exact fun hk => h hk.symm
      simp only [List.map_cons, ha, if_true, List.find?_cons, hk2, ha2, ih]
    · simp only [Bool.not_eq_true] at ha
      simp only [List.map_cons, ha, Bool.false_eq_true, if_false, List.find?_cons]
      by_cases ha2 : (a.1 == k2) = true
      · simp only [ha2]
      · simp only [Bool.not_eq_true] at ha2
        simp only [ha2, ih]

theorem find?_append_single_ne {α : Type} (m : List (String × α))
    (k k2 : String) (v : α) (h : k2 ≠ k) :
    (m ++ [(k, v)]).find? (fun p => p.1 == k2) = m.find? (fun p => p.1 == k2) := by
  induction m with
  | nil =>
    have hk2 : (((k, v) : String × α).1 == k2) = false := by
      simp only [beq_eq_false_iff_ne, ne_eq]
      exact fun hk => h hk.symm
    simp only [List.nil_append, List.find?_nil, List.find?_cons, hk2]
  | cons a t ih =>
    simp only [List.cons_append, List.find?_cons]
    by_cases ha2 : (a.1 == k2) = true
    · simp only [ha2]
    · simp only [Bool.not_eq_true] at ha2
      simp only [ha2, ih]

theorem mapGet_mapSet_ne {α : Type} (m : List (String × α)) (k k2 : String)
    (v : α) (h : k2 ≠ k) : mapGet (mapSet m k v) k2 = mapGet m k2 := by
  unfold mapSet mapGet
  by_cases hm : mapHas m k = true
  · simp only [hm, if_true]
    rw [find?_map_replace_ne m k k2 v h]
  · simp only [Bool.not_eq_true] at hm
    simp only [hm, Bool.false_eq_true, if_false]
    rw [find?_append_single_ne m k k2 v h]

/-- The stable error codes of the error taxonomy that the embedded
operations raise (utils ERROR table; only the codes the claims need). -/
inductive ErrorCode
  | NO_MATCHING_TOPIC
  | EXPIRED
  | RESTORE_WILL_OVERRIDE
  | UNAUTHORIZED_MATCHING_CONTROLLER
  | STORAGE_FAILURE
deriving DecidableEq, Repr

/-- Relay descriptor `RelayerTypes.ProtocolOptions` (the loose `params?: any`
field is never consulted by the embedded operations and is omitted). -/
structure RelayProtocolOptions where
  protocol : String
deriving DecidableEq, Repr

/-!
Relayer (controllers/relayer.ts).  `Relayer.subscriptions` is a
`Map<string, string[]>` from topic to the relay-assigned subscription ids.
The embedded `unsubscribeId` covers the synchronous state change performed
after `provider.request` resolves (the transport round trip and the
listener removal carry no Relayer state that the claims mention); the
`Promise.all` of the no-id branch is linearised as a left fold over the
snapshot of ids the source reads before the loop.
-/

/-- Relayer.unsubscribeId (relayer.ts): after the `_unsubscribe` RPC, the
source runs `subscriptions.set(topic, subscriptions.filter(x => x === id))`
— the filter KEEPS the entries equal to `id`. -/
def unsubscribeId (subs : List (String × List String)) (topic id : String) :
    List (String × List String) :=
  match mapGet subs topic with
  | none => subs
  | some ids => mapSet subs topic (ids.filter (fun x => x == id))

/-- Relayer.unsubscribe (relayer.ts): with an id, one `unsubscribeId`; with
no id, `unsubscribeId` for every id currently held for the topic (absent
topic: return unchanged). -/
def relayerUnsubscribe (subs : List (String × List String)) (topic : String)
    (id? : Option String) : List (String × List String) :=
  match id? with
  | some id => unsubscribeId subs topic id
  | none =>
    match mapGet subs topic with
    | none => subs
    | some ids => ids.foldl (fun acc id => unsubscribeId acc topic id) subs

/-- constants/relayer.ts: `RELAYER_DEFAULT_PROTOCOL = "waku"`. -/
def RELAYER_DEFAULT_PROTOCOL : String := "waku"

/-- constants/time.ts is not part of the staged sources; `SIX_HOURS` is the
six hours in seconds its name denotes (`FIVE_SECONDS * 1000` being the 5 s
beat in ms shows the time constants are counted in seconds). -/
def SIX_HOURS : Nat := 6 * 60 * 60

/-- constants/relayer.ts: `RELAYER_DEFAULT_PUBLISH_TTL = SIX_HOURS`. -/
def RELAYER_DEFAULT_PUBLISH_TTL : Nat := SIX_HOURS

/-- Modelled from the spec: the relay-provider package (external to this
repository) maps a protocol name to its JSON-RPC method names; spec
section 6 gives the publish method as the protocol name followed by
the suffix `_publish`. -/
def relayProtocolPublishMethod (protocol : String) : String :=
  protocol ++ "_publish"

/-- The JSON-RPC request `Relayer.publish` hands to `provider.request`. -/
structure RelayPublishRequest where
  method : String
  topic : String
  message : String
  ttl : Nat
deriving DecidableEq, Repr

/-- `RelayerTypes.PublishOptions`: `{relay, ttl?}`. -/
structure PublishOptions where
  relay : RelayProtocolOptions
  ttl : Option Nat
deriving DecidableEq, Repr

/-- Relayer.publish (relayer.ts), parameterised over the crypto controller
(`hasKeys`, `encrypt`), the hex encoder (`utf8ToHex`) and the JSON
serialiser (`serialize` stands for `safeJsonStringify`).  JS `||` defaults
apply to the empty protocol string and to a zero ttl (both falsy). -/
def relayerPublish {Payload : Type} (hasKeys : String → Bool)
    (encrypt : String → String → String) (utf8ToHex : String → String)
    (serialize : Payload → String) (topic : String) (payload : Payload)
    (opts : Option PublishOptions) : RelayPublishRequest :=
  let protocol :=
    match opts with
    | some o =>
      if o.relay.protocol = "" then RELAYER_DEFAULT_PROTOCOL else o.relay.protocol
    | none => RELAYER_DEFAULT_PROTOCOL
  let msg := serialize payload
  let message := if hasKeys topic then encrypt topic msg else utf8ToHex msg
  let ttl :=
    match opts with
    | some o =>
      match o.ttl with
      | some t => if t = 0 then RELAYER_DEFAULT_PUBLISH_TTL else t
      | none => RELAYER_DEFAULT_PUBLISH_TTL
    | none => RELAYER_DEFAULT_PUBLISH_TTL
  { method := relayProtocolPublishMethod protocol
  , topic := topic
  , message := message
  , ttl := ttl }

/-!
Pairing merge rules (controllers/pairing.ts).  A settled pairing carries
`permissions = {jsonrpc: {methods}, notifications: {types}, controller}`;
an upgrade carries `permissions` whose `jsonrpc` and `notifications`
members are optional (`?.` plus `|| []` in the source).
-/

/-- `permissions.controller` of a settled pairing: `{publicKey}`. -/
structure PairingParticipant where
  publicKey : String
deriving DecidableEq, Repr

/-- The permissions of a settled pairing, flattened: `methods` is
`permissions.jsonrpc.methods`, `types` is `permissions.notifications.types`. -/
structure PairingPermissions where
  methods : List String
  types : List String
  controller : PairingParticipant
deriving DecidableEq, Repr

/-- The permissions carried by an upgrade: both member objects optional. -/
structure PairingUpgradePermissions where
  methods : Option (List String)
  types : Option (List String)
deriving DecidableEq, Repr

/-- Pairing.mergeUpgrade (pairing.ts), the merge itself: the source spreads
the settled arrays and the upgrade arrays (`|| []`) into new arrays —
plain concatenation — and keeps `settled.permissions.controller`. -/
def mergeUpgradePermissions (settled : PairingPermissions)
    (upgrade : PairingUpgradePermissions) : PairingPermissions :=
  { methods := settled.methods ++ upgrade.methods.getD []
  , types := settled.types ++ upgrade.types.getD []
  , controller := settled.controller }

/-- Pairing.mergeUpgrade (pairing.ts): reads the settled pairing at `topic`
from the settled subscription store, then merges. -/
def mergeUpgrade (settledStore : List (String × PairingPermissions))
    (topic : String) (upgrade : PairingUpgradePermissions) :
    Except ErrorCode PairingPermissions :=
  match mapGet settledStore topic with
  | none => Except.error ErrorCode.NO_MATCHING_TOPIC
  | some settled => Except.ok (mergeUpgradePermissions settled upgrade)

/-- A sequence of upgrades applied in order (each `upgrade` call merges into
the then-current settled permissions). -/
def applyUpgrades (settled : PairingPermissions)
    (upgrades : List PairingUpgradePermissions) : PairingPermissions :=
  upgrades.foldl mergeUpgradePermissions settled

/-- The union of two ordered sets as the claim words it: all elements of
both sides, first occurrence kept, duplicates dropped.  This definition
follows the claim, not the source; it is the comparison point for C2. -/
def orderedSetUnion (l1 l2 : List String) : List String :=
  (l1 ++ l2).dedup

/-!
Subscription store (controllers/subscription.ts).  The store is generic
over the sequence payload; the payload is a JS object of unknown shape, so
it is embedded as a field-name → value association list, which makes the
shallow spread `{...subscription.sequence, ...update}` of
`Subscription.update` expressible.  The operations are modelled in the
enabled state (`cached = []`, the steady state after `init`), where every
`isEnabled()` gate resolves immediately; `restore`, the one operation the
claims exercise on the disabled store, is modelled separately below with
its outcome record.  Timer handles (`NodeJS.Timeout`) carry no data the
claims need beyond liveness, so the `timeout` map sends a topic to `true`
(armed) or `false` (cleared by `clearTimeout`; the source never removes
the map entry, it only clears the handle).
-/

/-- A sequence payload: a JS object as a field map. -/
abbrev SeqData := List (String × String)

/-- JS object spread over field maps: every field of `upd` overrides or
extends `old`, fields keep first-writer order. -/
def jsMerge (old upd : SeqData) : SeqData :=
  upd.foldl (fun acc kv => mapSet acc kv.1 kv.2) old

/-- `SubscriptionOptions = {relay, expiry?}` (types/subscription.ts). -/
structure SubscriptionOptions where
  relay : RelayProtocolOptions
  expiry : Option Nat
deriving DecidableEq, Repr

/-- `SubscriptionParams = {topic, sequence, relay, expiry}`
(types/subscription.ts). -/
structure SubscriptionParams where
  topic : String
  sequence : SeqData
  relay : RelayProtocolOptions
  expiry : Nat
deriving DecidableEq, Repr

/-- The SUBSCRIPTION_EVENTS the store emits on the client bus (the `tag`
field is a logging context and is not modelled). -/
inductive SubEvent
  | created (topic : String) (sequence : SeqData)
  | updated (topic : String) (sequence : SeqData) (upd : SeqData)
  | deleted (topic : String) (sequence : SeqData) (reason : ErrorCode)
deriving DecidableEq, Repr

/-- The mutable state of one Subscription store. -/
structure SubState where
  subscriptions : List (String × SubscriptionParams)
  timeouts : List (String × Bool)
  events : List SubEvent
deriving DecidableEq, Repr

/-- constants/time.ts `FIVE_SECONDS` (seconds; file not staged, the value
is the five seconds the spec names for the beat). -/
def FIVE_SECONDS : Nat := 5

/-- constants/client.ts: `CLIENT_BEAT_INTERVAL = FIVE_SECONDS * 1000`. -/
def CLIENT_BEAT_INTERVAL : Nat := FIVE_SECONDS * 1000

/-- Subscription.deleteTimeout (subscription.ts): `clearTimeout` on the
held handle; the map entry itself is not removed. -/
def deleteTimeout (s : SubState) (topic : String) : SubState :=
  if mapHas s.timeouts topic then
    { s with timeouts := mapSet s.timeouts topic false }
  else s

/-- Subscription.delete (subscription.ts): look the topic up (absent →
NO_MATCHING_TOPIC), remove the entry, emit `deleted` with the given
reason.  The source touches neither the timeout map nor the timer. -/
def subDelete (s : SubState) (topic : String) (reason : ErrorCode) :
    Except ErrorCode SubState :=
  match mapGet s.subscriptions topic with
  | none => Except.error ErrorCode.NO_MATCHING_TOPIC
  | some sub =>
    Except.ok { s with
      subscriptions := mapDelete s.subscriptions topic
      events := s.events ++ [SubEvent.deleted topic sub.sequence reason] }

/-- Subscription.onTimeout (subscription.ts): clear the own timer, then
`delete(topic, EXPIRED)`.  The delete is not awaited; a rejection (absent
topic) is an unhandled promise and changes no state. -/
def onTimeout (s : SubState) (topic : String) : SubState :=
  let s1 := deleteTimeout s topic
  match subDelete s1 topic ErrorCode.EXPIRED with
  | Except.ok s2 => s2
  | Except.error _ => s1

/-- Subscription.setTimeout (subscription.ts): skip when a map entry for
the topic exists; expire immediately when the remaining ttl is ≤ 0; arm a
timer only when the remaining ttl is ≤ one beat interval. -/
def setTimeoutStep (s : SubState) (topic : String) (expiry now : Nat) :
    SubState :=
  if mapHas s.timeouts topic then s
  else
    let ttl : Int := (expiry : Int) - (now : Int)
    if ttl ≤ 0 then onTimeout s topic
    else if ttl > (CLIENT_BEAT_INTERVAL : Int) then s
    else { s with timeouts := mapSet s.timeouts topic true }

/-- The expiry `Subscription.subscribeAndSet` computes:
`opts.expiry || Date.now() + SUBSCRIPTION_DEFAULT_TTL * 1000` — a zero
(falsy) supplied expiry falls back to the default.  `ttlDefaultMs` stands
for `SUBSCRIPTION_DEFAULT_TTL * 1000` (the constant is store-specific and
its file is not staged, so it stays a parameter). -/
def subExpiry (opts : SubscriptionOptions) (now ttlDefaultMs : Nat) : Nat :=
  match opts.expiry with
  | some e => if e = 0 then now + ttlDefaultMs else e
  | none => now + ttlDefaultMs

/-- Subscription.subscribeAndSet (subscription.ts): store
`{topic, sequence, ...opts, expiry}` and run `setTimeout`. -/
def subscribeAndSet (s : SubState) (topic : String) (sequence : SeqData)
    (opts : SubscriptionOptions) (now ttlDefaultMs : Nat) : SubState :=
  let expiry := subExpiry opts now ttlDefaultMs
  let s1 := { s with
    subscriptions := mapSet s.subscriptions topic
      { topic := topic, sequence := sequence, relay := opts.relay, expiry := expiry } }
  setTimeoutStep s1 topic expiry now

/-- Subscription.update (subscription.ts): look the topic up (absent →
NO_MATCHING_TOPIC), shallow-merge the partial into the stored sequence,
re-store `{...subscription, topic, sequence}`, emit `updated`. -/
def subUpdate (s : SubState) (topic : String) (upd : SeqData) :
    Except ErrorCode SubState :=
  match mapGet s.subscriptions topic with
  | none => Except.error ErrorCode.NO_MATCHING_TOPIC
  | some sub =>
    let sequence := jsMerge sub.sequence upd
    Except.ok { s with
      subscriptions := mapSet s.subscriptions topic
        { sub with topic := topic, sequence := sequence }
      events := s.events ++ [SubEvent.updated topic sequence upd] }

/-- Subscription.set (subscription.ts): present topic → `update(topic,
sequence)` (the error branch is unreachable: the topic was just found);
absent topic → `subscribeAndSet` then emit `created`. -/
def subSet (s : SubState) (topic : String) (sequence : SeqData)
    (opts : SubscriptionOptions) (now ttlDefaultMs : Nat) : SubState :=
  if mapHas s.subscriptions topic then
    match subUpdate s topic sequence with
    | Except.ok s1 => s1
    | Except.error _ => s
  else
    let s1 := subscribeAndSet s topic sequence opts now ttlDefaultMs
    { s1 with events := s1.events ++ [SubEvent.created topic sequence] }

/-- Subscription.checkSubscriptions (subscription.ts): on every beat,
`setTimeout(sub.topic, sub.expiry)` for every entry, over the snapshot of
entries the beat observes. -/
def checkSubscriptions (s : SubState) (now : Nat) : SubState :=
  s.subscriptions.foldl
    (fun acc kv => setTimeoutStep acc kv.2.topic kv.2.expiry now) s

/-- What one `restore` run produced: the resulting state, whether the
`enabled` event was emitted, and whether the catch block logged an error. -/
structure RestoreOutcome where
  state : SubState
  enabledEmitted : Bool
  failureLogged : Bool
deriving DecidableEq, Repr

/-- Subscription.restore, body inside the try (subscription.ts): a failed
storage read propagates (`STORAGE_FAILURE` stands for whatever the adapter
threw); an undefined or empty persisted item returns early with nothing
emitted; a non-empty persisted item over a non-empty in-memory map throws
RESTORE_WILL_OVERRIDE before any mutation; otherwise every cached entry is
re-inserted via `subscribeAndSet` and `enable()` emits `enabled`. -/
def restoreBody (prior : SubState)
    (stored : Except Unit (Option (List SubscriptionParams)))
    (now ttlDefaultMs : Nat) : Except ErrorCode RestoreOutcome :=
  match stored with
  | Except.error _ => Except.error ErrorCode.STORAGE_FAILURE
  | Except.ok none => Except.ok ⟨prior, false, false⟩
  | Except.ok (some persisted) =>
    if persisted.isEmpty then Except.ok ⟨prior, false, false⟩
    else if ¬ prior.subscriptions.isEmpty then
      Except.error ErrorCode.RESTORE_WILL_OVERRIDE
    else
      let s1 := persisted.foldl
        (fun acc sub => subscribeAndSet acc sub.topic sub.sequence
          { relay := sub.relay, expiry := some sub.expiry } now ttlDefaultMs)
        prior
      Except.ok ⟨s1, true, false⟩

/-- Subscription.restore (subscription.ts), with its try/catch:
every error of the body is caught and logged, so restore — and with it
`Subscription.init`, which only awaits restore — always resolves; the
catch leaves the store exactly as it was. -/
def restore (prior : SubState)
    (stored : Except Unit (Option (List SubscriptionParams)))
    (now ttlDefaultMs : Nat) : RestoreOutcome :=
  match restoreBody prior stored now ttlDefaultMs with
  | Except.ok r => r
  | Except.error _ => ⟨prior, false, true⟩

/-!
Client approval logic (client.ts) and the connect permissions.
-/

/-- The approval decision `Client.pair` computes before calling
`pairing.respond`. -/
structure PairDecision where
  approved : Bool
  reason : Option ErrorCode
deriving DecidableEq, Repr

/-- Client.pair (client.ts): `approved = proposal.proposer.controller !==
this.controller`; the reason is set only when not approved. -/
def clientPairDecision (proposerController selfController : Bool) :
    PairDecision :=
  let approved := proposerController != selfController
  { approved := approved
  , reason := if approved then none
              else some ErrorCode.UNAUTHORIZED_MATCHING_CONTROLLER }

/-- What the `wc_sessionPropose` branch of Client.registerEventListeners
does with an inbound proposal. -/
inductive SessionProposeAction
  | rejectProposal (reason : ErrorCode)
  | emitProposal
deriving DecidableEq, Repr

/-- Client.registerEventListeners (client.ts), the `wc_sessionPropose`
branch: a proposer controller flag equal to the own flag is answered with
`respond({approved: false, reason: UNAUTHORIZED_MATCHING_CONTROLLER})`;
otherwise the proposal is emitted to the application. -/
def clientOnSessionPropose (proposerController selfController : Bool) :
    SessionProposeAction :=
  if proposerController == selfController then
    SessionProposeAction.rejectProposal ErrorCode.UNAUTHORIZED_MATCHING_CONTROLLER
  else SessionProposeAction.emitProposal

/-- Modelled from the spec: Engine.respond (engine.ts is not among the
staged sources) stores a settled sequence only on the approved path —
spec 4.4: if approved, derive settled topic, subscribe, store; if not,
reply with reject and do not store settled. -/
def respondCreatesSettled (approved : Bool) : Bool := approved

/-- `notifications` permissions: `{types}`. -/
structure NotificationsPermissions where
  types : List String
deriving DecidableEq, Repr

/-- The proposed session permissions `Client.connect` forwards, flattened:
`jsonrpcMethods` is `permissions.jsonrpc.methods`, `blockchainChains` is
`permissions.blockchain.chains`. -/
structure SessionProposedPermissions where
  jsonrpcMethods : List String
  blockchainChains : List String
  notifications : NotificationsPermissions
deriving DecidableEq, Repr

/-- Modelled from the spec: `SESSION_EMPTY_PERMISSIONS.notifications`
(constants/session.ts is not among the staged sources); the empty default
notifications permissions are `types: []` (spec data model and S1). -/
def SESSION_EMPTY_PERMISSIONS_notifications : NotificationsPermissions :=
  { types := [] }

/-- Client.connect (client.ts): the permissions handed to
`session.create` are `{...params.permissions, notifications:
SESSION_EMPTY_PERMISSIONS.notifications}` — the caller notifications are
overridden, everything else is forwarded. -/
def clientConnectPermissions (p : SessionProposedPermissions) :
    SessionProposedPermissions :=
  { p with notifications := SESSION_EMPTY_PERMISSIONS_notifications }

theorem mapHas_eq_true_of_mapGet_some {α : Type} {m : List (String × α)}
    {k : String} {v : α} (h : mapGet m k = some v) : mapHas m k = true := by
  unfold mapGet at h
  unfold mapHas
  cases hf : m.find? (fun p => p.1 == k) with
  | none => rw [hf] at h; exact absurd h (by simp)
  | some p =>
    have hmem := List.mem_of_find?_eq_some hf
    have hpred := List.find?_some hf
    exact List.any_eq_true.mpr ⟨p, hmem, hpred⟩

theorem mapHas_eq_false_of_mapGet_none {α : Type} {m : List (String × α)}
    {k : String} (h : mapGet m k = none) : mapHas m k = false := by
  unfold mapGet at h
  unfold mapHas
  cases hf : m.find? (fun p => p.1 == k) with
  | some p => rw [hf] at h; exact absurd h (by simp)
  | none =>
    rw [List.find?_eq_none] at hf
    cases ha : m.any (fun p => p.1 == k) with
    | false => rfl
    | true =>
      obtain ⟨p, hmem, hpred⟩ := List.any_eq_true.mp ha
      exact absurd hpred (by simpa using hf p hmem)

theorem mapGet_mapSet_self {α : Type} (m : List (String × α)) (k : String)
    (v : α) : mapGet (mapSet m k v) k = some v := by
  unfold mapSet
  by_cases hm : mapHas m k = true
  · simp only [hm, if_true]
    unfold mapHas at hm
    induction m with
    | nil => simp at hm
    | cons a t ih =>
      by_cases ha : (a.1 == k) = true
      · simp only [List.map_cons, ha, if_true]
        unfold mapGet
        rw [List.find?_cons_of_pos _ (by simp)]
      · simp only [Bool.not_eq_true] at ha
        simp only [List.any_cons, ha, Bool.false_or] at hm
        simp only [List.map_cons, ha, Bool.false_eq_true, if_false]
        unfold mapGet
        rw [List.find?_cons_of_neg _ (by simp [ha])]
        have := ih hm
        unfold mapGet at this
        exact this
  · simp only [Bool.not_eq_true] at hm
    simp only [hm, Bool.false_eq_true, if_false]
    unfold mapHas at hm
    induction m with
    | nil =>
      unfold mapGet
      rw [List.nil_append, List.find?_cons_of_pos _ (by simp)]
    | cons a t ih =>
      simp only [List.any_cons, Bool.or_eq_false_iff] at hm
      unfold mapGet
      rw [List.cons_append, List.find?_cons_of_neg _ (by simp [hm.1])]
      have := ih (by simp [hm.2])
      unfold mapGet at this
      exact this

/-!
Claim theorems.
-/

/-- Claim C1 (code bug): at topic t holding subscription ids a and b,
`unsubscribe(t, ids := a)` leaves exactly the id a — the source filter
`subscriptions.filter(x => x === id)` keeps the matching id and drops every
other id, the opposite of removing that single id (which would leave b).
The no-id call ends with the id list empty. -/
theorem relayer_unsubscribe_filter_keeps_matching_id :
    relayerUnsubscribe [("t", ["a", "b"])] "t" (some "a") = [("t", ["a"])] ∧
    relayerUnsubscribe [("t", ["a", "b"])] "t" none = [("t", [])] ∧
    [("t", ["a"])] ≠ [("t", ["b"])] := by
  refine ⟨rfl, rfl, by decide⟩

/-- Claim C2, counterexample: merging settled methods [a] with proposed
methods [a] yields [a, a], which is not the union of the two taken as an
ordered set (that union is [a]); mergeUpgrade concatenates without
removing duplicates. -/
theorem pairing_mergeUpgrade_not_ordered_set_union :
    (mergeUpgradePermissions ⟨["a"], [], ⟨"c"⟩⟩ ⟨some ["a"], none⟩).methods
      = ["a", "a"] ∧
    orderedSetUnion ["a"] ["a"] = ["a"] ∧
    (mergeUpgradePermissions ⟨["a"], [], ⟨"c"⟩⟩ ⟨some ["a"], none⟩).methods
      ≠ orderedSetUnion ["a"] ["a"] := by
  refine ⟨rfl, by decide, by decide⟩

theorem applyUpgrades_methods_mono (s : PairingPermissions)
    (us : List PairingUpgradePermissions) (x : String) (hx : x ∈ s.methods) :
    x ∈ (applyUpgrades s us).methods := by
  induction us generalizing s with
  | nil => exact hx
  | cons u t ih =>
    exact ih (mergeUpgradePermissions s u)
      (by simp only [mergeUpgradePermissions, List.mem_append]; exact Or.inl hx)

theorem applyUpgrades_types_mono (s : PairingPermissions)
    (us : List PairingUpgradePermissions) (x : String) (hx : x ∈ s.types) :
    x ∈ (applyUpgrades s us).types := by
  induction us generalizing s with
  | nil => exact hx
  | cons u t ih =>
    exact ih (mergeUpgradePermissions s u)
      (by simp only [mergeUpgradePermissions, List.mem_append]; exact Or.inl hx)

theorem applyUpgrades_controller_eq (s : PairingPermissions)
    (us : List PairingUpgradePermissions) :
    (applyUpgrades s us).controller = s.controller := by
  induction us generalizing s with
  | nil => rfl
  | cons u t ih => exact ih (mergeUpgradePermissions s u)

/-- Claim C2 (amended): mergeUpgrade returns permissions whose methods are
the concatenation of the settled and the proposed methods (elementwise
exactly the union of the two, though duplicates are not removed), whose
types are likewise the concatenation, and whose controller is the settled
controller unchanged; after any sequence of upgrades the method and the
type lists contain everything the initial ones contained, and the
controller is still the initial one. -/
theorem pairing_mergeUpgrade_concat_monotone :
    (∀ s u, mergeUpgradePermissions s u =
      ⟨s.methods ++ u.methods.getD [], s.types ++ u.types.getD [],
        s.controller⟩) ∧
    (∀ s u x, x ∈ (mergeUpgradePermissions s u).methods ↔
      x ∈ s.methods ∨ x ∈ u.methods.getD []) ∧
    (∀ s u x, x ∈ (mergeUpgradePermissions s u).types ↔
      x ∈ s.types ∨ x ∈ u.types.getD []) ∧
    (∀ store topic u, mergeUpgrade store topic u =
      (match mapGet store topic with
        | none => Except.error ErrorCode.NO_MATCHING_TOPIC
        | some settled => Except.ok (mergeUpgradePermissions settled u))) ∧
    (∀ s us x, x ∈ s.methods → x ∈ (applyUpgrades s us).methods) ∧
    (∀ s us x, x ∈ s.types → x ∈ (applyUpgrades s us).types) ∧
    (∀ s us, (applyUpgrades s us).controller = s.controller) := by
  refine ⟨fun s u => rfl, ?_, ?_, fun store topic u => rfl, ?_, ?_, ?_⟩
  · intro s u x
    simp [mergeUpgradePermissions, List.mem_append]
  · intro s u x
    simp [mergeUpgradePermissions, List.mem_append]
  · exact applyUpgrades_methods_mono
  · exact applyUpgrades_types_mono
  · exact applyUpgrades_controller_eq

/-- Witness for C2: a concrete upgrade sequence keeps the initial method. -/
theorem pairing_mergeUpgrade_concat_monotone_witness :
    "a" ∈ (⟨["a"], ["n"], ⟨"c"⟩⟩ : PairingPermissions).methods ∧
    "a" ∈ (applyUpgrades ⟨["a"], ["n"], ⟨"c"⟩⟩
      [⟨some ["b"], none⟩, ⟨none, some ["m"]⟩]).methods :=
  ⟨by decide,
    pairing_mergeUpgrade_concat_monotone.2.2.2.2.1 ⟨["a"], ["n"], ⟨"c"⟩⟩
      [⟨some ["b"], none⟩, ⟨none, some ["m"]⟩] "a" (by decide)⟩

/-- Claim C3, counterexample: a store holding topic t with a live armed
timer; delete(t, reason) removes the entry and emits deleted with the
reason, but the timeout map still holds the live timer afterwards — the
claimed cancellation of the armed TTL timer does not happen. -/
theorem subscription_delete_leaves_timer_armed :
    (subDelete ⟨[("t", ⟨"t", [], ⟨"waku"⟩, 10000⟩)], [("t", true)], []⟩ "t"
        ErrorCode.EXPIRED).map
      (fun s => (mapGet s.subscriptions "t", mapGet s.timeouts "t", s.events))
      = Except.ok (none, some true,
          [SubEvent.deleted "t" [] ErrorCode.EXPIRED]) := by
  rfl

/-- Claim C3 (amended): for a present topic, delete removes the entry from
the map and emits a deleted event carrying the given reason, but leaves
the timeout map — any armed TTL timer included — untouched; for an absent
topic it fails with NO_MATCHING_TOPIC. -/
theorem subscription_delete_spec (s : SubState) (topic : String)
    (reason : ErrorCode) :
    (∀ sub, mapGet s.subscriptions topic = some sub →
      subDelete s topic reason = Except.ok { s with
        subscriptions := mapDelete s.subscriptions topic
        events := s.events ++ [SubEvent.deleted topic sub.sequence reason] }) ∧
    (mapGet s.subscriptions topic = none →
      subDelete s topic reason = Except.error ErrorCode.NO_MATCHING_TOPIC) := by
  constructor
  · intro sub h
    simp [subDelete, h]
  · intro h
    simp [subDelete, h]

/-- Witness for C3: the amended delete applied at a concrete store. -/
theorem subscription_delete_spec_witness :
    subDelete (⟨[("u", ⟨"u", [], ⟨"waku"⟩, 5⟩)], [], []⟩ : SubState) "u"
        ErrorCode.EXPIRED
      = Except.ok ⟨[], [], [SubEvent.deleted "u" [] ErrorCode.EXPIRED]⟩ := by
  have h := (subscription_delete_spec ⟨[("u", ⟨"u", [], ⟨"waku"⟩, 5⟩)], [], []⟩
    "u" ErrorCode.EXPIRED).1 ⟨"u", [], ⟨"waku"⟩, 5⟩ (by decide)
  exact h

/-- Claim C4, counterexample: a set on an absent topic with supplied
expiry 0 (at now = 100, default TTL 10000 ms): the stored expiry is
now + default TTL = 10100, not the supplied 0 (the JS `||` default treats
the 0 as absent), and with the remaining TTL above the 5000 ms beat
interval no timer is armed — against the claimed `expiry = opts.expiry
when supplied` and `a timer is armed`. -/
theorem subscription_set_zero_expiry_no_timer :
    subSet ⟨[], [], []⟩ "t" [("k", "v")] ⟨⟨"waku"⟩, some 0⟩ 100 10000
      = ⟨[("t", ⟨"t", [("k", "v")], ⟨"waku"⟩, 10100⟩)], [],
          [SubEvent.created "t" [("k", "v")]]⟩ ∧
    (10100 : Nat) ≠ 0 := by
  exact ⟨rfl, by decide⟩

/-- Claim C4 (amended): a set on a present topic behaves exactly as
update (shallow merge into the stored sequence, one updated event, no
created event, still one entry); a set on an absent topic inserts an
entry whose expiry is the supplied `opts.expiry` when that is nonzero and
`now + default TTL` otherwise (a zero supplied expiry is falsy to the
defaulting `||`), emits a created event, and arms a timeout only when the
remaining TTL is at most the beat interval. -/
theorem subscription_set_spec (s : SubState) (topic : String)
    (sequence : SeqData) (opts : SubscriptionOptions) (now ttlDefaultMs : Nat) :
    (∀ sub, mapGet s.subscriptions topic = some sub →
      subSet s topic sequence opts now ttlDefaultMs = { s with
        subscriptions := mapSet s.subscriptions topic
          { sub with topic := topic, sequence := jsMerge sub.sequence sequence }
        events := s.events ++
          [SubEvent.updated topic (jsMerge sub.sequence sequence) sequence] }) ∧
    (∀ e, opts.expiry = some e → e ≠ 0 →
      subExpiry opts now ttlDefaultMs = e) ∧
    (opts.expiry = none → subExpiry opts now ttlDefaultMs = now + ttlDefaultMs) ∧
    (opts.expiry = some 0 → subExpiry opts now ttlDefaultMs = now + ttlDefaultMs) ∧
    (mapGet s.subscriptions topic = none → mapHas s.timeouts topic = false →
      (now < subExpiry opts now ttlDefaultMs →
       subExpiry opts now ttlDefaultMs ≤ now + CLIENT_BEAT_INTERVAL →
       subSet s topic sequence opts now ttlDefaultMs = { s with
         subscriptions := mapSet s.subscriptions topic
           ⟨topic, sequence, opts.relay, subExpiry opts now ttlDefaultMs⟩
         timeouts := mapSet s.timeouts topic true
         events := s.events ++ [SubEvent.created topic sequence] }) ∧
      (now + CLIENT_BEAT_INTERVAL < subExpiry opts now ttlDefaultMs →
       subSet s topic sequence opts now ttlDefaultMs = { s with
         subscriptions := mapSet s.subscriptions topic
           ⟨topic, sequence, opts.relay, subExpiry opts now ttlDefaultMs⟩
         events := s.events ++ [SubEvent.created topic sequence] })) := by
  refine ⟨?_, ?_, ?_, ?_, ?_⟩
  · intro sub h
    have hhas := mapHas_eq_true_of_mapGet_some h
    simp only [subSet, hhas, if_true, subUpdate, h]
  · intro e he hne
    simp [subExpiry, he, hne]
  · intro he
    simp [subExpiry, he]
  · intro he
    simp [subExpiry, he]
  · intro habs htim
    have hhas := mapHas_eq_false_of_mapGet_none habs
    constructor
    · intro h1 h2
      simp only [subSet, hhas, Bool.false_eq_true, if_false, subscribeAndSet,
        setTimeoutStep, htim]
      rw [if_neg (by omega :
        ¬ ((subExpiry opts now ttlDefaultMs : Int) - (now : Int) ≤ 0))]
      rw [if_neg (by
        have : (CLIENT_BEAT_INTERVAL : Nat) = 5000 := by decide
        omega :
        ¬ ((subExpiry opts now ttlDefaultMs : Int) - (now : Int) >
          (CLIENT_BEAT_INTERVAL : Int)))]
    · intro h1
      simp only [subSet, hhas, Bool.false_eq_true, if_false, subscribeAndSet,
        setTimeoutStep, htim]
      rw [if_neg (by omega :
        ¬ ((subExpiry opts now ttlDefaultMs : Int) - (now : Int) ≤ 0))]
      rw [if_pos (by
        have : (CLIENT_BEAT_INTERVAL : Nat) = 5000 := by decide
        omega :
        ((subExpiry opts now ttlDefaultMs : Int) - (now : Int) >
          (CLIENT_BEAT_INTERVAL : Int)))]

/-- Witness for C4: a concrete set on an absent topic with remaining TTL
inside one beat interval arms the timer and stores the supplied expiry. -/
theorem subscription_set_spec_witness :
    mapGet (⟨[], [], []⟩ : SubState).subscriptions "t" = none ∧
    subSet ⟨[], [], []⟩ "t" [("k", "v")] ⟨⟨"waku"⟩, some 3000⟩ 0 10000
      = ⟨[("t", ⟨"t", [("k", "v")], ⟨"waku"⟩, 3000⟩)], [("t", true)],
          [SubEvent.created "t" [("k", "v")]]⟩ := by
  refine ⟨rfl, ?_⟩
  have h := ((subscription_set_spec ⟨[], [], []⟩ "t" [("k", "v")]
    ⟨⟨"waku"⟩, some 3000⟩ 0 10000).2.2.2.2 rfl rfl).1 (by decide) (by decide)
  exact h

/-- Claim C7: on a beat tick `checkSubscriptions` rewalks every entry with
`setTimeout(topic, expiry)`; per entry, a topic with a timeout-map entry
is skipped; with none, remaining TTL ≤ 0 expires the entry immediately
(via `onTimeout`), remaining TTL within one beat interval arms the timer,
and a larger remaining TTL does nothing; a firing timer (`onTimeout`)
clears its own handle and deletes the entry with reason EXPIRED. -/
theorem subscription_beat_ttl_spec (s : SubState) (topic : String)
    (expiry now : Nat) :
    (mapHas s.timeouts topic = true → setTimeoutStep s topic expiry now = s) ∧
    (mapHas s.timeouts topic = false → (expiry : Int) - (now : Int) ≤ 0 →
      setTimeoutStep s topic expiry now = onTimeout s topic) ∧
    (mapHas s.timeouts topic = false → 0 < (expiry : Int) - (now : Int) →
      (expiry : Int) - (now : Int) ≤ (CLIENT_BEAT_INTERVAL : Int) →
      setTimeoutStep s topic expiry now =
        { s with timeouts := mapSet s.timeouts topic true }) ∧
    (mapHas s.timeouts topic = false →
      (CLIENT_BEAT_INTERVAL : Int) < (expiry : Int) - (now : Int) →
      setTimeoutStep s topic expiry now = s) ∧
    (∀ sub, mapGet s.subscriptions topic = some sub →
      onTimeout s topic = { deleteTimeout s topic with
        subscriptions := mapDelete s.subscriptions topic
        events := s.events ++
          [SubEvent.deleted topic sub.sequence ErrorCode.EXPIRED] }) ∧
    (∀ now2, checkSubscriptions s now2 = s.subscriptions.foldl
      (fun acc kv => setTimeoutStep acc kv.2.topic kv.2.expiry now2) s) := by
  refine ⟨?_, ?_, ?_, ?_, ?_, fun now2 => rfl⟩
  · intro ht
    simp [setTimeoutStep, ht]
  · intro ht h0
    simp only [setTimeoutStep, ht, Bool.false_eq_true, if_false]
    rw [if_pos h0]
  · intro ht h0 hb
    simp only [setTimeoutStep, ht, Bool.false_eq_true, if_false]
    rw [if_neg (by omega), if_neg (by omega)]
  · intro ht hb
    simp only [setTimeoutStep, ht, Bool.false_eq_true, if_false]
    rw [if_neg (by omega), if_pos (by omega)]
  · intro sub h
    unfold onTimeout deleteTimeout
    by_cases ht : mapHas s.timeouts topic = true
    · simp only [ht, if_true, subDelete]
      simp only [h]
    · simp only [Bool.not_eq_true] at ht
      simp only [ht, Bool.false_eq_true, if_false, subDelete]
      simp only [h]

/-- Witness for C7: a concrete entry whose remaining TTL is inside one
beat interval gets its timer armed by the beat walk step. -/
theorem subscription_beat_ttl_spec_witness :
    setTimeoutStep ⟨[("t", ⟨"t", [], ⟨"waku"⟩, 3000⟩)], [], []⟩ "t" 3000 0
      = ⟨[("t", ⟨"t", [], ⟨"waku"⟩, 3000⟩)], [("t", true)], []⟩ := by
  have h := (subscription_beat_ttl_spec ⟨[("t", ⟨"t", [], ⟨"waku"⟩, 3000⟩)], [], []⟩
    "t" 3000 0).2.2.1 rfl (by decide) (by decide)
  exact h

/-- Claim C5: a proposer controller flag equal to the own flag makes
Client.pair respond not-approved with reason
UNAUTHORIZED_MATCHING_CONTROLLER (and the respond path then creates no
settled sequence), and makes the inbound `wc_sessionPropose` listener
reject with the same reason; flags that differ make Client.pair approve
and make the listener forward the proposal. -/
theorem client_matching_controller_rejection (pc sc : Bool) :
    (pc = sc →
      clientPairDecision pc sc =
        ⟨false, some ErrorCode.UNAUTHORIZED_MATCHING_CONTROLLER⟩ ∧
      clientOnSessionPropose pc sc = SessionProposeAction.rejectProposal
        ErrorCode.UNAUTHORIZED_MATCHING_CONTROLLER ∧
      respondCreatesSettled (clientPairDecision pc sc).approved = false) ∧
    (pc ≠ sc →
      clientPairDecision pc sc = ⟨true, none⟩ ∧
      clientOnSessionPropose pc sc = SessionProposeAction.emitProposal) := by
  cases pc <;> cases sc <;> exact ⟨fun h => by simp_all [clientPairDecision,
    clientOnSessionPropose, respondCreatesSettled],
    fun h => by simp_all [clientPairDecision, clientOnSessionPropose]⟩

/-- Witness for C5: concrete controller flags on both sides of the case
split. -/
theorem client_matching_controller_rejection_witness :
    clientPairDecision true true =
      ⟨false, some ErrorCode.UNAUTHORIZED_MATCHING_CONTROLLER⟩ ∧
    clientOnSessionPropose false true = SessionProposeAction.emitProposal :=
  ⟨((client_matching_controller_rejection true true).1 rfl).1,
    ((client_matching_controller_rejection false true).2 (by decide)).2⟩

/-- Claim C6: the message Relayer.publish sends is the encryption of the
serialised payload under the topic key when the keychain holds one, the
hex encoding of the serialised payload otherwise; the outbound request
method is the protocol name (defaulting to waku) with the `_publish`
suffix, and its params are the topic, the message and the ttl
(`opts.ttl` when supplied and nonzero, RELAYER_DEFAULT_PUBLISH_TTL
otherwise). -/
theorem relayer_publish_spec {Payload : Type} (hasKeys : String → Bool)
    (encrypt : String → String → String) (utf8ToHex : String → String)
    (serialize : Payload → String) (topic : String) (payload : Payload) :
    (relayerPublish hasKeys encrypt utf8ToHex serialize topic payload none =
      { method := "waku_publish", topic := topic
        message := if hasKeys topic then encrypt topic (serialize payload)
                   else utf8ToHex (serialize payload)
        ttl := RELAYER_DEFAULT_PUBLISH_TTL }) ∧
    (∀ o : PublishOptions, o.relay.protocol ≠ "" →
      (relayerPublish hasKeys encrypt utf8ToHex serialize topic payload
        (some o)).method = o.relay.protocol ++ "_publish") ∧
    (∀ o : PublishOptions,
      (relayerPublish hasKeys encrypt utf8ToHex serialize topic payload
        (some o)).message =
        (if hasKeys topic then encrypt topic (serialize payload)
         else utf8ToHex (serialize payload)) ∧
      (relayerPublish hasKeys encrypt utf8ToHex serialize topic payload
        (some o)).topic = topic) ∧
    (∀ o : PublishOptions, ∀ t, o.ttl = some t → t ≠ 0 →
      (relayerPublish hasKeys encrypt utf8ToHex serialize topic payload
        (some o)).ttl = t) ∧
    (∀ o : PublishOptions, o.ttl = none →
      (relayerPublish hasKeys encrypt utf8ToHex serialize topic payload
        (some o)).ttl = RELAYER_DEFAULT_PUBLISH_TTL) := by
  refine ⟨rfl, ?_, ?_, ?_, ?_⟩
  · intro o h
    simp [relayerPublish, relayProtocolPublishMethod, h]
  · intro o
    exact ⟨rfl, rfl⟩
  · intro o t h hne
    simp [relayerPublish, h, hne]
  · intro o h
    simp [relayerPublish, h]

/-- Witness for C6: a concrete publish request with a key present and a
supplied ttl. -/
theorem relayer_publish_spec_witness :
    ((⟨⟨"irn"⟩, some 300⟩ : PublishOptions).relay.protocol ≠ "") ∧
    (relayerPublish (fun _ => true) (fun t m => t ++ m) (fun m => m)
      (fun m : String => m) "t" "doc" (some ⟨⟨"irn"⟩, some 300⟩)).method
      = "irn" ++ "_publish" :=
  ⟨by decide,
    (relayer_publish_spec (fun _ => true) (fun t m => t ++ m) (fun m => m)
      (fun m : String => m) "t" "doc").2.1 ⟨⟨"irn"⟩, some 300⟩ (by decide)⟩

/-- Claim C8: the proposal permissions Client.connect hands to
session.create always carry the empty default notifications (types = []),
whatever the caller supplied there, while the other permission fields are
forwarded unchanged. -/
theorem client_connect_empty_notifications (p : SessionProposedPermissions) :
    (clientConnectPermissions p).notifications.types = [] ∧
    (clientConnectPermissions p).jsonrpcMethods = p.jsonrpcMethods ∧
    (clientConnectPermissions p).blockchainChains = p.blockchainChains :=
  ⟨rfl, rfl, rfl⟩

/-- Claim C9: restore (and so Subscription.init, which only awaits it)
always resolves: a failed storage read, a missing or empty persisted
item, and the RESTORE_WILL_OVERRIDE throw over a non-empty in-memory map
all end in the catch (or an early return) with the pre-existing entries
intact and the enabled event not emitted by restore. -/
theorem subscription_restore_resilient (prior : SubState)
    (stored : Except Unit (Option (List SubscriptionParams)))
    (now ttlDefaultMs : Nat) :
    (restore prior (Except.error ()) now ttlDefaultMs = ⟨prior, false, true⟩) ∧
    (restore prior (Except.ok none) now ttlDefaultMs = ⟨prior, false, false⟩) ∧
    (restore prior (Except.ok (some [])) now ttlDefaultMs
      = ⟨prior, false, false⟩) ∧
    (∀ l, l ≠ [] → prior.subscriptions ≠ [] →
      restore prior (Except.ok (some l)) now ttlDefaultMs
        = ⟨prior, false, true⟩) ∧
    (∀ e, restoreBody prior stored now ttlDefaultMs = Except.error e →
      restore prior stored now ttlDefaultMs = ⟨prior, false, true⟩) := by
  refine ⟨rfl, rfl, rfl, ?_, ?_⟩
  · intro l hl hp
    cases l with
    | nil => exact absurd rfl hl
    | cons a t =>
      simp only [restore, restoreBody, List.isEmpty_cons, Bool.false_eq_true,
        if_false]
      rw [if_pos (by
        cases hs : prior.subscriptions with
        | nil => exact absurd hs hp
        | cons b u => simp [hs])]
  · intro e h
    simp [restore, h]

/-- Witness for C9: a concrete non-empty store is left untouched by a
restore that would override it. -/
theorem subscription_restore_resilient_witness :
    restore (⟨[("t", ⟨"t", [], ⟨"waku"⟩, 9⟩)], [], []⟩ : SubState)
      (Except.ok (some [⟨"u", [], ⟨"waku"⟩, 9⟩])) 0 10000
      = ⟨⟨[("t", ⟨"t", [], ⟨"waku"⟩, 9⟩)], [], []⟩, false, true⟩ := by
  have h := (subscription_restore_resilient
    ⟨[("t", ⟨"t", [], ⟨"waku"⟩, 9⟩)], [], []⟩ (Except.ok none) 0 10000).2.2.2.1
    [⟨"u", [], ⟨"waku"⟩, 9⟩] (by decide) (by decide)
  exact h

/-- Claim C10: update on a present topic replaces only the sequence field
of the stored entry with the shallow merge of the old sequence and the
partial, keeps the entry topic, relay options and expiry, leaves every
other topic and the whole timeout map untouched, and emits updated. -/
theorem subscription_update_frame (s : SubState) (topic : String)
    (upd : SeqData) :
    (∀ sub, mapGet s.subscriptions topic = some sub →
      subUpdate s topic upd = Except.ok { s with
        subscriptions := mapSet s.subscriptions topic
          ⟨topic, jsMerge sub.sequence upd, sub.relay, sub.expiry⟩
        events := s.events ++
          [SubEvent.updated topic (jsMerge sub.sequence upd) upd] }) ∧
    (∀ sub, mapGet s.subscriptions topic = some sub →
      (subUpdate s topic upd).map (fun s1 => mapGet s1.subscriptions topic)
        = Except.ok (some ⟨topic, jsMerge sub.sequence upd, sub.relay,
            sub.expiry⟩)) ∧
    (∀ sub t2, mapGet s.subscriptions topic = some sub → t2 ≠ topic →
      (subUpdate s topic upd).map (fun s1 => mapGet s1.subscriptions t2)
        = Except.ok (mapGet s.subscriptions t2)) ∧
    (∀ sub, mapGet s.subscriptions topic = some sub →
      (subUpdate s topic upd).map (fun s1 => s1.timeouts)
        = Except.ok s.timeouts) := by
  refine ⟨?_, ?_, ?_, ?_⟩
  · intro sub h
    simp only [subUpdate, h]
  · intro sub h
    simp only [subUpdate, h, Except.map]
    rw [mapGet_mapSet_self]
  · intro sub t2 h hne
    simp only [subUpdate, h, Except.map]
    rw [mapGet_mapSet_ne _ _ _ _ hne]
  · intro sub h
    simp only [subUpdate, h, Except.map]

/-- Witness for C10: a concrete update merges one field and keeps the
rest of the entry and the store. -/
theorem subscription_update_frame_witness :
    subUpdate (⟨[("t", ⟨"t", [("a", "1")], ⟨"waku"⟩, 9⟩)], [("t", true)], []⟩ :
        SubState) "t" [("b", "2")]
      = Except.ok ⟨[("t", ⟨"t", [("a", "1"), ("b", "2")], ⟨"waku"⟩, 9⟩)],
          [("t", true)],
          [SubEvent.updated "t" [("a", "1"), ("b", "2")] [("b", "2")]]⟩ := by
  have h := (subscription_update_frame
    ⟨[("t", ⟨"t", [("a", "1")], ⟨"waku"⟩, 9⟩)], [("t", true)], []⟩ "t"
    [("b", "2")]).1 ⟨"t", [("a", "1")], ⟨"waku"⟩, 9⟩ (by decide)
  exact h

end WCv2
